import Mathlib

/- Verification development for the x10mqtt gateway (src/x10mqtt.py).

   The script bridges MQTT and the X10 `heyu` controller.  We give a shallow
   embedding of its core functions over `List Char` (Python `str` values are
   modelled as lists of characters; the claims only exercise ASCII, and the
   case-mapping helpers below model Python `str.upper` / `str.lower` on the
   ASCII range).  Side effects (subprocess invocations, MQTT publishes,
   `print` logging) are modelled as explicit output lists, and the mutable
   module-level variable `rcvihc` is threaded through the monitor-loop step
   function explicitly. -/

namespace X10Mqtt

/- ASCII case mapping, modelling Python str.upper / str.lower (the script only
   ever case-maps housecodes, commands and config letters, all ASCII). -/

def upChar (c : Char) : Char :=
  if 'a' ≤ c ∧ c ≤ 'z' then Char.ofNat (c.toNat - 32) else c

def downChar (c : Char) : Char :=
  if 'A' ≤ c ∧ c ≤ 'Z' then Char.ofNat (c.toNat + 32) else c

def upperL (s : List Char) : List Char := s.map upChar

def lowerL (s : List Char) : List Char := s.map downChar

/- Decimal rendering, modelling Python str() on integers. -/

def natToStr (n : Nat) : List Char := (Nat.repr n).toList

def intToStr (i : Int) : List Char := (toString i).toList

/- Character classes of the housecode pattern "^[A-P][0-9]+$" (line 214). -/

def isHcLetter (c : Char) : Bool := decide ('A' ≤ c ∧ c ≤ 'P')

def isDigitChar (c : Char) : Bool := decide ('0' ≤ c ∧ c ≤ '9')

/- message.topic.split("/") (line 207), with Python str.split semantics for a
   one-character separator: "".split("/") == [""], "a//b" keeps empty parts. -/

def splitSlash : List Char → List (List Char)
  | [] => [[]]
  | c :: rest =>
    if c = '/' then [] :: splitSlash rest
    else
      match splitSlash rest with
      | [] => [[c]]
      | s :: ss => (c :: s) :: ss

/- topiclist[len(topiclist)-1] (line 210): the last element of the split. -/

def lastSeg (l : List Char) : List Char := (splitSlash l).getLastD []

/- re.match("^[A-P][0-9]+$", hc) (lines 214-215).  Python `$` matches at the
   end of the string or just before one final newline, so after the digits we
   accept either the end of the string or a single trailing '\n'. -/

def digitsThenEnd : List Char → Bool
  | [] => true
  | c :: rest => if c = '\n' then rest.isEmpty else isDigitChar c && digitsThenEnd rest

def hcMatch : List Char → Bool
  | c :: d :: rest => isHcLetter c && (isDigitChar d && digitsThenEnd rest)
  | _ => false

/-- Input-domain grammar of the claims: full-string membership in the regular
language `[A-P][0-9]+` (one letter A-P, then one or more digits).  This is the
hypothesis side of the claims; the code's own check is `hcMatch` above. -/
def specHouseGrammar : List Char → Bool
  | c :: d :: rest => isHcLetter c && (isDigitChar d && rest.all isDigitChar)
  | _ => false


/- ------------------------------------------------------------------ -/
/- Command execution path: execute (lines 110-124) and on_message
   (lines 199-219).                                                    -/
/- ------------------------------------------------------------------ -/

/- An MQTT publish: client.publish(topic, payload, retain=...). -/

structure Publish where
  topic : List Char
  payload : List Char
  retain : Bool
deriving DecidableEq

/- heyucmd computation in execute (lines 113-118): for the CM11 the command
   is passed as-is; for the CM17 "on"/"off" become "fon"/"foff".  The source
   uses two sequential ifs on cmd.lower(); since cmd.lower() cannot equal
   both "on" and "off", this if/else chain is the same function. -/

def heyucmdOf (cm17 : Bool) (cmd : List Char) : List Char :=
  if cm17 then
    if lowerL cmd = "on".toList then "fon".toList
    else if lowerL cmd = "off".toList then "foff".toList
    else cmd
  else cmd

/- Result of execute: the single subprocess.run argv, the print lines, the
   publish issued, and the returned exit code.  The subprocess exit code is
   an input of the model (the environment decides it). -/

structure ExecResult where
  argv : List (List Char)
  logs : List (List Char)
  pubs : List Publish
  ret : Int
deriving DecidableEq

/- execute(client, cmd, housecode) (lines 110-124), with the exit code of
   subprocess.run supplied as `returncode`.  `if result.returncode:` is
   Python int truthiness, i.e. returncode ≠ 0. -/

def execute (cm17 : Bool) (stattopic cmd housecode : List Char) (returncode : Int) :
    ExecResult :=
  ⟨["heyu".toList, lowerL (heyucmdOf cm17 cmd), lowerL housecode],
   (if returncode ≠ 0 then
      ["Error running heyu, return code: ".toList ++ intToStr returncode]
    else [])
     ++ ["Device Status Update: ".toList ++ stattopic ++ "/".toList ++ lowerL housecode],
   [⟨stattopic ++ "/".toList ++ lowerL housecode, upperL cmd, true⟩],
   returncode⟩

/- Result of the on_message callback: heyu invocations performed, print
   lines, publishes issued. -/

structure MsgResult where
  invocations : List (List (List Char))
  logs : List (List Char)
  pubs : List Publish
deriving DecidableEq

/- "Received: "+message.topic+" "+command (line 206). -/

def receivedLog (topic command : List Char) : List Char :=
  "Received: ".toList ++ topic ++ " ".toList ++ command

/- on_message (lines 199-219): command := payload upper-cased, hc := last
   "/"-separated topic segment upper-cased; if command is ON/OFF and hc
   matches "^[A-P][0-9]+$" run execute, else log the rejection. -/

def on_message (cm17 : Bool) (stattopic topic payload : List Char) (returncode : Int) :
    MsgResult :=
  if upperL payload ∈ ["ON".toList, "OFF".toList] ∧
      hcMatch (upperL (lastSeg topic)) = true then
    ⟨[(execute cm17 stattopic (upperL payload) (upperL (lastSeg topic)) returncode).argv],
     receivedLog topic (upperL payload)
       :: ("Sending X10 command to homecode ".toList ++ upperL (lastSeg topic))
       :: (execute cm17 stattopic (upperL payload) (upperL (lastSeg topic)) returncode).logs,
     (execute cm17 stattopic (upperL payload) (upperL (lastSeg topic)) returncode).pubs⟩
  else
    ⟨[], [receivedLog topic (upperL payload), "Invalid command or home code".toList], []⟩

/- ------------------------------------------------------------------ -/
/- HomeAssistant discovery: ha_discovery_announce (lines 225-234) and
   the on_connect announcement loop (lines 189-193).                   -/
/- ------------------------------------------------------------------ -/

/- One discovery message: topic, config dict (in insertion order) and the
   retain flag.  The published payload is json.dumps of the config, see
   jsonDumps / discoveryPayload below. -/

structure DiscoveryMsg where
  topic : List Char
  config : List (List Char × List Char)
  retain : Bool
deriving DecidableEq

/- json.dumps on a dict of plain strings, with the default separators
   (", " and ": ").  String escaping is modelled for quote and backslash;
   the script's config values are ASCII without control characters, for
   which this agrees with Python json.dumps. -/

def jsonEscapeChar (c : Char) : List Char :=
  if c = Char.ofNat 34 ∨ c = Char.ofNat 92 then [Char.ofNat 92, c] else [c]

def jsonStringLit (s : List Char) : List Char :=
  Char.ofNat 34 :: (s.flatMap jsonEscapeChar ++ [Char.ofNat 34])

def joinComma : List (List Char) → List Char
  | [] => []
  | [x] => x
  | x :: y :: rest => x ++ ", ".toList ++ joinComma (y :: rest)

def jsonDumps (kvs : List (List Char × List Char)) : List Char :=
  Char.ofNat 123 ::
    (joinComma (kvs.map fun kv => jsonStringLit kv.1 ++ ": ".toList ++ jsonStringLit kv.2)
      ++ [Char.ofNat 125])

/- ha_discovery_announce(client, house, unit) (lines 225-234).  house is one
   letter, unit a number; the topic and config are built from the three
   configured topic prefixes. -/

def ha_discovery_announce (discoverytopic stattopic cmdtopic : List Char)
    (house : Char) (unit : Nat) : DiscoveryMsg :=
  ⟨discoverytopic ++
     ("/switch/x10mqtt/x10_".toList ++ ([downChar house] ++ (natToStr unit ++ "/config".toList))),
   [("name".toList, "X10 Module ".toList ++ ([upChar house] ++ natToStr unit)),
    ("state_topic".toList, stattopic ++ ("/".toList ++ ([downChar house] ++ natToStr unit))),
    ("command_topic".toList, cmdtopic ++ ("/".toList ++ ([downChar house] ++ natToStr unit))),
    ("unique_id".toList, "x10mqtt_x10_".toList ++ ([downChar house] ++ natToStr unit))],
   true⟩

/- The actually published discovery payload: json.dumps(config) (line 234). -/

def discoveryPayload (m : DiscoveryMsg) : List Char := jsonDumps m.config

/- The announcement loop of on_connect (lines 190-193):
   for house in discoveryhouses: for unit in range(1, 17): announce. -/

def on_connect_discovery (discoverytopic stattopic cmdtopic : List Char)
    (houses : List Char) : List DiscoveryMsg :=
  houses.flatMap fun h =>
    (List.range' 1 16).map (ha_discovery_announce discoverytopic stattopic cmdtopic h)

/- DISCOVERY_HOUSECODES filtering (line 85):
   [h for h in s.upper() if h in "ABCDEFGHIJKLMNOP"]. -/

def discoveryHousesOf (s : List Char) : List Char :=
  (upperL s).filter fun h => h ∈ "ABCDEFGHIJKLMNOP".toList

/- ------------------------------------------------------------------ -/
/- Monitor line recognizers (lines 274-275):
   rercviaddr = (?:rcvi|rcvt|sndc|snds|sndm|sndt) addr unit.+hu ([A-P][0-9]+)
   rercvifunc = (?:rcvi|rcvt|sndc|snds|sndm|sndt) func.*(On|Off) :
   used with re.search (leftmost match; greedy .+ / .* / [0-9]+, so the
   capture is taken at the last viable position after the literal part).   -/
/- ------------------------------------------------------------------ -/

/- Strip a literal from the front of the input, or fail. -/

def stripLit : List Char → List Char → Option (List Char)
  | [], l => some l
  | _, [] => none
  | p :: ps, c :: cs => if c = p then stripLit ps cs else none

/- The alternation (?:rcvi|rcvt|sndc|snds|sndm|sndt).  The six literals are
   pairwise distinct four-character words, so at any position at most one of
   them can match and trying them in order needs no backtracking. -/

def heyuDirWords : List (List Char) :=
  ["rcvi".toList, "rcvt".toList, "sndc".toList, "snds".toList, "sndm".toList, "sndt".toList]

def stripAnyWord : List (List Char) → List Char → Option (List Char)
  | [], _ => none
  | w :: ws, l =>
    match stripLit w l with
    | some r => some r
    | none => stripAnyWord ws l

/- "hu ([A-P][0-9]+)" at the current position: the capture is the letter and
   the (greedy, nonempty) run of digits after it. -/

def parseHu : List Char → Option (List Char)
  | 'h' :: 'u' :: ' ' :: c :: rest =>
    if isHcLetter c then
      match rest.takeWhile isDigitChar with
      | [] => none
      | ds => some (c :: ds)
    else none
  | _ => none

/- ".*hu ([A-P][0-9]+)": greedy, so the deepest (rightmost) position where
   parseHu succeeds wins; '.' does not match a newline. -/

def dotStarHu : List Char → Option (List Char)
  | [] => none
  | c :: rest =>
    match (if c = '\n' then none else dotStarHu rest) with
    | some cap => some cap
    | none => parseHu (c :: rest)

/- ".+hu ([A-P][0-9]+)": at least one '.' before the literal part. -/

def dotPlusHu : List Char → Option (List Char)
  | [] => none
  | c :: rest => if c = '\n' then none else dotStarHu rest

/- "(On|Off) :" at the current position. -/

def parseOnOff : List Char → Option (List Char)
  | 'O' :: 'n' :: ' ' :: ':' :: _ => some "On".toList
  | 'O' :: 'f' :: 'f' :: ' ' :: ':' :: _ => some "Off".toList
  | _ => none

/- ".*(On|Off) :": greedy. -/

def dotStarOnOff : List Char → Option (List Char)
  | [] => none
  | c :: rest =>
    match (if c = '\n' then none else dotStarOnOff rest) with
    | some cap => some cap
    | none => parseOnOff (c :: rest)

/- The whole address pattern anchored at the current position. -/

def matchAddrAt (l : List Char) : Option (List Char) :=
  match stripAnyWord heyuDirWords l with
  | none => none
  | some r =>
    match stripLit " addr unit".toList r with
    | none => none
    | some r2 => dotPlusHu r2

/- The whole function pattern anchored at the current position. -/

def matchFuncAt (l : List Char) : Option (List Char) :=
  match stripAnyWord heyuDirWords l with
  | none => none
  | some r =>
    match stripLit " func".toList r with
    | none => none
    | some r2 => dotStarOnOff r2

/- rercviaddr.search(line) (line 282): leftmost position where the address
   pattern matches, returning group(1). -/

def rercviaddr_search : List Char → Option (List Char)
  | [] => none
  | c :: rest =>
    match matchAddrAt (c :: rest) with
    | some cap => some cap
    | none => rercviaddr_search rest

/- rercvifunc.search(line) (line 283). -/

def rercvifunc_search : List Char → Option (List Char)
  | [] => none
  | c :: rest =>
    match matchFuncAt (c :: rest) with
    | some cap => some cap
    | none => rercvifunc_search rest

/- ------------------------------------------------------------------ -/
/- The monitor loop state machine: rcviaddr (lines 155-158),
   rcvifunc (lines 169-174) and the main loop (lines 281-287).  The
   module-level variable rcvihc is passed and returned explicitly.     -/
/- ------------------------------------------------------------------ -/

/- Output of one step of the monitor loop: the new rcvihc, the publishes
   issued, the print lines. -/

structure MonOut where
  rcvihc : List Char
  pubs : List Publish
  logs : List (List Char)
deriving DecidableEq

/- rcviaddr(housecode): store the received housecode. -/

def rcviaddr (_rcvihc housecode : List Char) : List Char := housecode

/- rcvifunc(client, func): if rcvihc is nonempty (Python str truthiness),
   publish the retained stat update and clear rcvihc; else do nothing. -/

def rcvifunc (stattopic rcvihc func : List Char) : MonOut :=
  if rcvihc ≠ [] then
    ⟨[],
     [⟨stattopic ++ "/".toList ++ lowerL rcvihc, upperL func, true⟩],
     ["Remote status change, publishing stat update: ".toList ++ stattopic ++ "/".toList
        ++ lowerL rcvihc ++ " is now ".toList ++ upperL func]⟩
  else ⟨rcvihc, [], []⟩

/- One iteration of the main loop (lines 281-287): both regexes are tried on
   the line; if the address regex matched, rcviaddr runs first, then if the
   function regex matched, rcvifunc runs (seeing the just-stored address). -/

def procLine (stattopic rcvihc line : List Char) : MonOut :=
  let hc1 :=
    match rercviaddr_search line with
    | some cap => rcviaddr rcvihc cap
    | none => rcvihc
  match rercvifunc_search line with
  | some cap => rcvifunc stattopic hc1 cap
  | none => ⟨hc1, [], []⟩

/- The loop over a finite prefix of the monitor line stream, collecting the
   publishes and logs in order. -/

def procLines (stattopic rcvihc : List Char) : List (List Char) → MonOut
  | [] => ⟨rcvihc, [], []⟩
  | line :: rest =>
    let o := procLine stattopic rcvihc line
    let o2 := procLines stattopic o.rcvihc rest
    ⟨o2.rcvihc, o.pubs ++ o2.pubs, o.logs ++ o2.logs⟩

/- ------------------------------------------------------------------ -/
/- The monitor generator (lines 133-140): yields every line of the
   subprocess output in order; when the stream ends it checks the exit
   code and raises only when it is non-zero (Python int truthiness).
   (The raise statement itself references an undefined name `cmd`, so
   the exception actually raised is a NameError rather than the
   intended CalledProcessError; either way an exception propagates,
   modelled as Except.error carrying the return code.)                 -/
/- ------------------------------------------------------------------ -/

def monitorRun (lines : List (List Char)) (returnCode : Int) :
    List (List Char) × Except Int Unit :=
  (lines, if returnCode ≠ 0 then Except.error returnCode else Except.ok ())

/- ------------------------------------------------------------------ -/
/- Concrete monitor lines, in the shape documented in the heyu release
   notes referenced at line 273 of the source.                         -/
/- ------------------------------------------------------------------ -/

def addrLineA1 : List Char :=
  "09/05 22:32:45  rcvi addr unit       1 : hu A1  (nokey)".toList

def addrLineB2 : List Char :=
  "09/05 22:32:45  rcvi addr unit       2 : hu B2  (nokey)".toList

def funcLineOn : List Char :=
  "09/05 22:32:45  rcvi func          On : hc A".toList

def funcLineOff : List Char :=
  "09/05 22:32:45  rcvi func         Off : hc B".toList

/- A single text line containing both an address segment and a function
   segment; re.search finds the address pattern in its first half and the
   function pattern in its second half. -/

def bothAddrFuncLine : List Char :=
  "rcvi addr unit 1 : hu A1 rcvi func On :".toList

/- Basic facts about the helpers. -/

theorem splitSlash_ne_nil (l : List Char) : splitSlash l ≠ [] := by
  cases l with
  | nil => simp [splitSlash]
  | cons c rest =>
    simp only [splitSlash]
    split
    · simp
    · split <;> simp

theorem splitSlash_cons_slash (l : List Char) : splitSlash ('/' :: l) = [] :: splitSlash l := by
  simp [splitSlash]

theorem splitSlash_cons_ne {c : Char} (l : List Char) (hc : ¬ c = '/') {s : List Char}
    {ss : List (List Char)} (hsp : splitSlash l = s :: ss) :
    splitSlash (c :: l) = (c :: s) :: ss := by
  simp only [splitSlash, if_neg hc, hsp]

theorem splitSlash_no_slash (l : List Char) (h : '/' ∉ l) : splitSlash l = [l] := by
  induction l with
  | nil => rfl
  | cons c rest ih =>
    have hc : ¬ c = '/' := by rintro rfl; exact h (List.mem_cons_self _ _)
    have hr : '/' ∉ rest := fun hm => h (List.mem_cons_of_mem c hm)
    exact splitSlash_cons_ne rest hc (ih hr)

theorem lastSeg_no_slash (l : List Char) (h : '/' ∉ l) : lastSeg l = l := by
  simp [lastSeg, splitSlash_no_slash l h]

theorem splitSlash_concat_aux (xs ys : List Char) :
    2 ≤ (splitSlash (xs ++ '/' :: ys)).length ∧
    (splitSlash (xs ++ '/' :: ys)).getLastD [] = (splitSlash ys).getLastD [] := by
  induction xs with
  | nil =>
    rw [List.nil_append, splitSlash_cons_slash]
    constructor
    · have := List.length_pos.mpr (splitSlash_ne_nil ys)
      simp only [List.length_cons]
      omega
    · exact List.getLastD_cons ..
  | cons c xs ih =>
    obtain ⟨ih1, ih2⟩ := ih
    rw [List.cons_append]
    by_cases hc : c = '/'
    · subst hc
      rw [splitSlash_cons_slash]
      constructor
      · simp only [List.length_cons]
        omega
      · rw [List.getLastD_cons]
        exact ih2
    · match hsp : splitSlash (xs ++ '/' :: ys) with
      | [] => exact absurd hsp (splitSlash_ne_nil _)
      | [s] => rw [hsp] at ih1; simp at ih1
      | s :: x :: t =>
        rw [splitSlash_cons_ne _ hc hsp]
        rw [hsp] at ih2
        constructor
        · simp only [List.length_cons]
          omega
        · rw [List.getLastD_cons, List.getLastD_cons] at ih2 ⊢
          exact ih2

theorem lastSeg_concat (xs ys : List Char) : lastSeg (xs ++ '/' :: ys) = lastSeg ys :=
  (splitSlash_concat_aux xs ys).2

theorem upChar_of_hcLetter {c : Char} (h : isHcLetter c = true) : upChar c = c := by
  have hd : 'A' ≤ c ∧ c ≤ 'P' := of_decide_eq_true h
  have : ¬ ('a' ≤ c ∧ c ≤ 'z') := by
    rintro ⟨hac, -⟩
    exact absurd (le_trans hac hd.2) (by decide)
  simp [upChar, this]

theorem upChar_of_digit {c : Char} (h : isDigitChar c = true) : upChar c = c := by
  have hd : '0' ≤ c ∧ c ≤ '9' := of_decide_eq_true h
  have : ¬ ('a' ≤ c ∧ c ≤ 'z') := by
    rintro ⟨hac, -⟩
    exact absurd (le_trans hac hd.2) (by decide)
  simp [upChar, this]

theorem map_upChar_digits {l : List Char} (h : l.all isDigitChar = true) :
    l.map upChar = l := by
  induction l with
  | nil => rfl
  | cons c rest ih =>
    rw [List.all_cons, Bool.and_eq_true] at h
    simp [upChar_of_digit h.1, ih h.2]

theorem digitsThenEnd_of_all {l : List Char} (h : l.all isDigitChar = true) :
    digitsThenEnd l = true := by
  induction l with
  | nil => rfl
  | cons c rest ih =>
    rw [List.all_cons, Bool.and_eq_true] at h
    by_cases hc : c = '\n'
    · subst hc
      exact absurd h.1 (by decide)
    · simp [digitsThenEnd, hc, h.1, ih h.2]

theorem grammar_facts {H : List Char} (h : specHouseGrammar H = true) :
    upperL H = H ∧ hcMatch H = true ∧ '/' ∉ H := by
  match H, h with
  | c :: d :: rest, h =>
    simp only [specHouseGrammar, Bool.and_eq_true] at h
    obtain ⟨hc, hd, hrest⟩ := h
    refine ⟨?_, ?_, ?_⟩
    · simp [upperL, upChar_of_hcLetter hc, upChar_of_digit hd, map_upChar_digits hrest]
    · simp [hcMatch, hc, hd, digitsThenEnd_of_all hrest]
    · intro hmem
      rcases List.mem_cons.mp hmem with h1 | hmem
      · rw [← h1] at hc
        exact absurd hc (by decide)
      · rcases List.mem_cons.mp hmem with h2 | hmem
        · rw [← h2] at hd
          exact absurd hd (by decide)
        · have := List.all_eq_true.mp hrest _ hmem
          exact absurd this (by decide)

/- ------------------------------------------------------------------ -/
/- Claims.                                                             -/
/- ------------------------------------------------------------------ -/

/-- Claim C1: for every housecode H matching `[A-P][0-9]+` and command C in
ON/OFF, an inbound message on topic `cmd-prefix/H` with payload C causes
exactly one controller invocation `[heyu, mode-mapped action, lowercase H]`
(the action is the lowercase of ON/OFF in CM11 mode and of FON/FOFF in CM17
mode, as heyu receives it) and exactly one retained publish to
`stat-prefix/lowercase(H)` with payload C. -/
theorem c1_command_dispatch (cm17 : Bool) (stattopic cmdtopic H C : List Char) (rc : Int)
    (hH : specHouseGrammar H = true) (hC : C = "ON".toList ∨ C = "OFF".toList) :
    (on_message cm17 stattopic (cmdtopic ++ '/' :: H) C rc).invocations
      = [["heyu".toList,
          if cm17 then (if C = "ON".toList then "fon".toList else "foff".toList)
          else lowerL C,
          lowerL H]] ∧
    (on_message cm17 stattopic (cmdtopic ++ '/' :: H) C rc).pubs
      = [⟨stattopic ++ "/".toList ++ lowerL H, C, true⟩] := by
  obtain ⟨hup, hmatch, hslash⟩ := grammar_facts hH
  have hlast : lastSeg (cmdtopic ++ '/' :: H) = H := by
    rw [lastSeg_concat, lastSeg_no_slash _ hslash]
  rcases hC with hC | hC <;> subst hC
  · have hcond : upperL "ON".toList ∈ ["ON".toList, "OFF".toList] ∧
        hcMatch (upperL (lastSeg (cmdtopic ++ '/' :: H))) = true := by
      refine ⟨by decide, ?_⟩
      rw [hlast, hup]
      exact hmatch
    simp only [on_message]
    rw [if_pos hcond, hlast, hup]
    cases cm17 <;> exact ⟨rfl, rfl⟩
  · have hcond : upperL "OFF".toList ∈ ["ON".toList, "OFF".toList] ∧
        hcMatch (upperL (lastSeg (cmdtopic ++ '/' :: H))) = true := by
      refine ⟨by decide, ?_⟩
      rw [hlast, hup]
      exact hmatch
    simp only [on_message]
    rw [if_pos hcond, hlast, hup]
    cases cm17 <;> exact ⟨rfl, rfl⟩

/-- Witness for claim C1, at the default configuration with H = A1, C = ON,
exit code 0, CM11 mode. -/
theorem c1_command_dispatch_witness :
    (on_message false "x10/stat".toList ("x10/cmd".toList ++ '/' :: "A1".toList)
        "ON".toList 0).invocations
      = [["heyu".toList, "on".toList, "a1".toList]] ∧
    (on_message false "x10/stat".toList ("x10/cmd".toList ++ '/' :: "A1".toList)
        "ON".toList 0).pubs
      = [⟨"x10/stat".toList ++ "/".toList ++ "a1".toList, "ON".toList, true⟩] :=
  c1_command_dispatch false "x10/stat".toList "x10/cmd".toList "A1".toList "ON".toList 0
    (by decide) (Or.inl rfl)

/-- Claim C2: when the controller invocation exits non-zero, the retained
publish of the commanded value still happens unchanged (identical to the
exit-code-0 publish), the non-zero exit is logged, and the exit code is
returned to the caller. -/
theorem c2_publish_on_failure (cm17 : Bool) (stattopic cmd housecode : List Char)
    (rc : Int) (h : rc ≠ 0) :
    (execute cm17 stattopic cmd housecode rc).pubs
      = [⟨stattopic ++ "/".toList ++ lowerL housecode, upperL cmd, true⟩] ∧
    (execute cm17 stattopic cmd housecode rc).pubs
      = (execute cm17 stattopic cmd housecode 0).pubs ∧
    (execute cm17 stattopic cmd housecode rc).ret = rc ∧
    ("Error running heyu, return code: ".toList ++ intToStr rc)
      ∈ (execute cm17 stattopic cmd housecode rc).logs := by
  refine ⟨rfl, rfl, rfl, ?_⟩
  show ("Error running heyu, return code: ".toList ++ intToStr rc)
      ∈ (if rc ≠ 0 then ["Error running heyu, return code: ".toList ++ intToStr rc]
         else [])
        ++ ["Device Status Update: ".toList ++ stattopic ++ "/".toList ++ lowerL housecode]
  rw [if_pos h]
  exact List.mem_append.mpr (Or.inl (List.mem_singleton.mpr rfl))

/-- Witness for claim C2: exit code 3, command ON for A1. -/
theorem c2_publish_on_failure_witness :
    (execute false "x10/stat".toList "ON".toList "A1".toList 3).pubs
      = [⟨"x10/stat".toList ++ "/".toList ++ "a1".toList, "ON".toList, true⟩] ∧
    (execute false "x10/stat".toList "ON".toList "A1".toList 3).pubs
      = (execute false "x10/stat".toList "ON".toList "A1".toList 0).pubs ∧
    (execute false "x10/stat".toList "ON".toList "A1".toList 3).ret = 3 ∧
    ("Error running heyu, return code: ".toList ++ intToStr 3)
      ∈ (execute false "x10/stat".toList "ON".toList "A1".toList 3).logs :=
  c2_publish_on_failure false "x10/stat".toList "ON".toList "A1".toList 3 (by decide)

/-- Claim C6: an inbound message whose case-normalized payload is not exactly
ON or OFF, or whose upper-cased last topic segment fails the housecode check,
is rejected: no controller invocation, no publish, only the received line and
the rejection are logged. -/
theorem c6_invalid_rejected (cm17 : Bool) (stattopic topic payload : List Char)
    (rc : Int)
    (h : ¬ (upperL payload ∈ ["ON".toList, "OFF".toList] ∧
            hcMatch (upperL (lastSeg topic)) = true)) :
    on_message cm17 stattopic topic payload rc
      = ⟨[], [receivedLog topic (upperL payload),
              "Invalid command or home code".toList], []⟩ := by
  simp only [on_message, if_neg h]

/-- Witness for claim C6: housecode Q1 is outside A-P, so the message is
rejected with no invocation and no publish. -/
theorem c6_invalid_rejected_witness :
    on_message false "x10/stat".toList "x10/cmd/Q1".toList "ON".toList 0
      = ⟨[], [receivedLog "x10/cmd/Q1".toList "ON".toList,
              "Invalid command or home code".toList], []⟩ :=
  c6_invalid_rejected false "x10/stat".toList "x10/cmd/Q1".toList "ON".toList 0
    (by decide)

/-- Claim C10: the housecode check places no bound on the unit number: any
topic whose last segment upper-cases to a letter A-P followed by a nonempty
digit string (unit 0 or units above 16 included) is accepted with an ON/OFF
payload and dispatched to the controller, with the corresponding retained
publish. -/
theorem c10_units_unbounded (cm17 : Bool) (stattopic topic payload : List Char)
    (rc : Int) (c : Char) (ds : List Char)
    (hletter : isHcLetter c = true) (hne : ds ≠ []) (hds : ds.all isDigitChar = true)
    (hseg : upperL (lastSeg topic) = c :: ds)
    (hpay : upperL payload ∈ ["ON".toList, "OFF".toList]) :
    (on_message cm17 stattopic topic payload rc).invocations
      = [["heyu".toList, lowerL (heyucmdOf cm17 (upperL payload)), lowerL (c :: ds)]] ∧
    (on_message cm17 stattopic topic payload rc).pubs
      = [⟨stattopic ++ "/".toList ++ lowerL (c :: ds), upperL payload, true⟩] := by
  have hmatch : hcMatch (c :: ds) = true := by
    match ds, hne with
    | d :: rest, _ =>
      rw [List.all_cons, Bool.and_eq_true] at hds
      simp [hcMatch, hletter, hds.1, digitsThenEnd_of_all hds.2]
  have hcond : upperL payload ∈ ["ON".toList, "OFF".toList] ∧
      hcMatch (upperL (lastSeg topic)) = true := ⟨hpay, by rw [hseg]; exact hmatch⟩
  simp only [on_message]
  rw [if_pos hcond, hseg]
  simp only [List.mem_cons, List.mem_singleton, List.not_mem_nil, or_false] at hpay
  rcases hpay with he | he <;> rw [he] <;> exact ⟨rfl, rfl⟩

/-- Witness for claim C10: unit 123 (outside the announced 1..16 range) is
accepted and dispatched. -/
theorem c10_units_unbounded_witness :
    (on_message false "x10/stat".toList "x10/cmd/a123".toList "on".toList 0).invocations
      = [["heyu".toList, "on".toList, "a123".toList]] ∧
    (on_message false "x10/stat".toList "x10/cmd/a123".toList "on".toList 0).pubs
      = [⟨"x10/stat".toList ++ "/".toList ++ "a123".toList, "ON".toList, true⟩] :=
  c10_units_unbounded false "x10/stat".toList "x10/cmd/a123".toList "on".toList 0
    'A' "123".toList (by decide) (by decide) (by decide) (by decide) (by decide)

/-- Claim C3 counterexample: the address pattern and the function pattern are
not disjoint recognizers — this single line matches both (the claim asserts
no such line exists). -/
theorem c3_counterexample :
    (rercviaddr_search bothAddrFuncLine).isSome = true ∧
    (rercvifunc_search bothAddrFuncLine).isSome = true := by decide

/-- Claim C3 (amended): the two patterns are tested independently on each
line, but they are not disjoint: a line holding both an address segment and a
function segment matches both.  When both match, the address handler runs
first, so the function handler emits exactly one event using the address
captured from the same line (address detection is applied first rather than
exclusively). -/
theorem c3_both_patterns (stattopic rcvihc : List Char) :
    rercviaddr_search bothAddrFuncLine = some "A1".toList ∧
    rercvifunc_search bothAddrFuncLine = some "On".toList ∧
    (procLine stattopic rcvihc bothAddrFuncLine).rcvihc = [] ∧
    (procLine stattopic rcvihc bothAddrFuncLine).pubs
      = [⟨stattopic ++ "/".toList ++ "a1".toList, "ON".toList, true⟩] :=
  ⟨by decide, by decide, rfl, rfl⟩

/-- Claim C4: a state event is published only once an address line and a
function line have been paired: a function line with no pending address
yields no event and leaves the state unchanged, while the pair A1-address
then On-function yields exactly one (A1, ON) publish. -/
theorem c4_paired_emission (stattopic : List Char) :
    (∀ line, rercviaddr_search line = none →
        procLine stattopic [] line = ⟨[], [], []⟩) ∧
    (procLines stattopic [] [addrLineA1, funcLineOn]).pubs
      = [⟨stattopic ++ "/".toList ++ "a1".toList, "ON".toList, true⟩] ∧
    (procLines stattopic [] [addrLineA1, funcLineOn]).rcvihc = [] ∧
    (procLines stattopic [] [funcLineOn]).pubs = [] ∧
    (procLines stattopic [] [funcLineOn]).rcvihc = [] := by
  refine ⟨?_, rfl, rfl, rfl, rfl⟩
  intro line h
  simp only [procLine, h]
  cases hf : rercvifunc_search line
  · simp only [hf]
  · simp only [hf]
    simp [rcvifunc]

/-- Witness for claim C4: a function line arriving with the pending-address
slot empty produces no publish and no state change. -/
theorem c4_paired_emission_witness :
    procLine "x10/stat".toList [] funcLineOn = ⟨[], [], []⟩ :=
  (c4_paired_emission "x10/stat".toList).1 funcLineOn (by decide)

/-- Claim C5: a second address line before any function line overwrites the
pending-address slot (last-write-wins), so A1, B2, Off yields exactly one
(B2, OFF) publish and A1 is discarded without any event. -/
theorem c5_last_write_wins (stattopic : List Char) :
    (∀ rcvihc cap line, rercviaddr_search line = some cap →
        rercvifunc_search line = none →
        procLine stattopic rcvihc line = ⟨cap, [], []⟩) ∧
    (procLines stattopic [] [addrLineA1, addrLineB2, funcLineOff]).pubs
      = [⟨stattopic ++ "/".toList ++ "b2".toList, "OFF".toList, true⟩] ∧
    (procLines stattopic [] [addrLineA1, addrLineB2, funcLineOff]).rcvihc = [] := by
  refine ⟨?_, rfl, rfl⟩
  intro rcvihc cap line ha hf
  simp [procLine, ha, hf, rcviaddr]

/-- Witness for claim C5: the B2 address line overwrites a pending A1 with no
event emitted. -/
theorem c5_last_write_wins_witness :
    procLine "x10/stat".toList "A1".toList addrLineB2 = ⟨"B2".toList, [], []⟩ :=
  (c5_last_write_wins "x10/stat".toList).1 "A1".toList "B2".toList addrLineB2
    (by decide) (by decide)

/-- Claim C7 counterexample: the claim says the monitor component signals a
fatal failure for every observed return code; but for return code 0 the line
stream simply ends with no failure raised (`if return_code:` is false). -/
theorem c7_counterexample : (monitorRun [] 0).2 = Except.ok () := rfl

/-- Claim C7 (amended): the monitor yields every line of the stream in order;
when the stream ends, a fatal failure is raised exactly when the observed
return code is non-zero (no restart is attempted in either case — the
failure propagates to the caller). -/
theorem c7_monitor_termination (lines : List (List Char)) (rc : Int) :
    (monitorRun lines rc).1 = lines ∧
    (rc ≠ 0 → (monitorRun lines rc).2 = Except.error rc) ∧
    ((monitorRun lines rc).2 = Except.ok () ↔ rc = 0) := by
  refine ⟨rfl, fun h => ?_, ?_, ?_⟩
  · simp [monitorRun, h]
  · intro h
    by_contra hne
    simp [monitorRun, hne] at h
  · intro h
    simp [monitorRun, h]

/-- Witness for claim C7: a non-zero return code (3) raises the fatal
failure. -/
theorem c7_monitor_termination_witness :
    (monitorRun [] 3).2 = Except.error 3 :=
  (c7_monitor_termination [] 3).2.1 (by decide)

/-- Claim C8: with configured housecode letters A and B, on_connect publishes
exactly 32 pairwise-distinct retained discovery messages, one per (letter,
unit 1..16) pair, each to topic
`discovery-prefix/switch/x10mqtt/x10_<letter><unit>/config`, whose config
object has exactly the keys name, state_topic, command_topic and unique_id,
and whose unique_id contains the (lowercase) housecode letter and unit. -/
theorem c8_discovery_set (dt st ct : List Char) :
    (on_connect_discovery dt st ct ['A', 'B']).length = 32 ∧
    ((on_connect_discovery dt st ct ['A', 'B']).map DiscoveryMsg.topic).Nodup ∧
    (on_connect_discovery dt st ct ['A', 'B']).Nodup ∧
    (∀ h, h ∈ (['A', 'B'] : List Char) → ∀ u, u ∈ List.range' 1 16 →
      ha_discovery_announce dt st ct h u ∈ on_connect_discovery dt st ct ['A', 'B'] ∧
      (ha_discovery_announce dt st ct h u).topic
        = dt ++ ("/switch/x10mqtt/x10_".toList
            ++ ([downChar h] ++ (natToStr u ++ "/config".toList))) ∧
      (ha_discovery_announce dt st ct h u).config.map Prod.fst
        = ["name".toList, "state_topic".toList, "command_topic".toList,
           "unique_id".toList] ∧
      (ha_discovery_announce dt st ct h u).retain = true ∧
      (∃ v s t, ("unique_id".toList, v) ∈ (ha_discovery_announce dt st ct h u).config ∧
        v = s ++ (([downChar h] ++ natToStr u) ++ t))) := by
  have htop : (on_connect_discovery dt st ct ['A', 'B']).map DiscoveryMsg.topic
      = ((['A', 'B'] : List Char).flatMap fun h => (List.range' 1 16).map fun u =>
          "/switch/x10mqtt/x10_".toList
            ++ ([downChar h] ++ (natToStr u ++ "/config".toList))).map
          (fun s => dt ++ s) := rfl
  have hsuf : ((['A', 'B'] : List Char).flatMap fun h => (List.range' 1 16).map fun u =>
      "/switch/x10mqtt/x10_".toList
        ++ ([downChar h] ++ (natToStr u ++ "/config".toList))).Nodup := by decide
  have hinj : Function.Injective (fun s : List Char => dt ++ s) :=
    fun a b hab => List.append_cancel_left hab
  have hnodup_top :
      ((on_connect_discovery dt st ct ['A', 'B']).map DiscoveryMsg.topic).Nodup := by
    rw [htop]
    exact List.Nodup.map hinj hsuf
  refine ⟨rfl, hnodup_top, List.Nodup.of_map _ hnodup_top, ?_⟩
  intro h hh u hu
  refine ⟨List.mem_flatMap.mpr ⟨h, hh, List.mem_map_of_mem _ hu⟩, rfl, rfl, rfl, ?_⟩
  exact ⟨"x10mqtt_x10_".toList ++ ([downChar h] ++ natToStr u),
    "x10mqtt_x10_".toList, [], by simp [ha_discovery_announce], by simp⟩

/-- Witness for claim C8 at the default topic prefixes, checking the count
and the membership of the (B, 16) announcement. -/
theorem c8_discovery_set_witness :
    (on_connect_discovery "homeassistant".toList "x10/stat".toList "x10/cmd".toList
        ['A', 'B']).length = 32 ∧
    ha_discovery_announce "homeassistant".toList "x10/stat".toList "x10/cmd".toList
        'B' 16
      ∈ on_connect_discovery "homeassistant".toList "x10/stat".toList "x10/cmd".toList
          ['A', 'B'] := by
  have hc := c8_discovery_set "homeassistant".toList "x10/stat".toList "x10/cmd".toList
  exact ⟨hc.1, (hc.2.2.2 'B' (by decide) 16 (by decide)).1⟩

/-- Claim C9: the discovery announcement for a given (letter, unit) is a pure
function of the configured topic prefixes alone — its topic, config and
json.dumps payload are given by this closed form, so any two runs of the
announcer (e.g. on reconnect) publish character-identical topics and
payloads. -/
theorem c9_discovery_deterministic (dt st ct : List Char) (house : Char) (unit : Nat) :
    ha_discovery_announce dt st ct house unit
      = ⟨dt ++ ("/switch/x10mqtt/x10_".toList
           ++ ([downChar house] ++ (natToStr unit ++ "/config".toList))),
         [("name".toList, "X10 Module ".toList ++ ([upChar house] ++ natToStr unit)),
          ("state_topic".toList, st ++ ("/".toList ++ ([downChar house] ++ natToStr unit))),
          ("command_topic".toList, ct ++ ("/".toList ++ ([downChar house] ++ natToStr unit))),
          ("unique_id".toList, "x10mqtt_x10_".toList ++ ([downChar house] ++ natToStr unit))],
         true⟩ ∧
    discoveryPayload (ha_discovery_announce dt st ct house unit)
      = jsonDumps
          [("name".toList, "X10 Module ".toList ++ ([upChar house] ++ natToStr unit)),
           ("state_topic".toList, st ++ ("/".toList ++ ([downChar house] ++ natToStr unit))),
           ("command_topic".toList, ct ++ ("/".toList ++ ([downChar house] ++ natToStr unit))),
           ("unique_id".toList, "x10mqtt_x10_".toList ++ ([downChar house] ++ natToStr unit))] :=
  ⟨rfl, rfl⟩

end X10Mqtt
